import Mathlib

/-!
Verification of the Otway-Rees server-side protocol engine (`src/Server.py`).

The embedding follows the Python source closely:

* Python values travelling on queues are modelled by `Msg`: either a bare
  string signal (`'HELLO'`, `'ERROR'`, `'FINISH'`, ...) or a tuple of fields.
* A tuple field (`Field`) is a string, an encrypted block, or a queue
  reference (the channel pairs returned by `connect`).
* The opaque cipher capability (`encrypt` / `decrypt` /
  `prepare_inner_message` from `Utils.py`, which is not part of `src/`) is
  modelled from the spec's boundary description in §6: `encrypt` pairs the
  colon-joined plaintext with the key, `decrypt` with the matching key
  recovers the plaintext, and any mismatched decryption yields an opaque
  garbled string.
* Mutation of `self` is explicit state passing on the `ServerWorker`
  structure; a Python exception is an `Except PyErr` result carrying the
  state as mutated up to the raise point.
* `ServerWorker.run` is a function from the worker state and the messages it
  would receive to the final state plus a trace of queue effects (`Event`).
-/

namespace OtwayRees

/-- Python exceptions used by `Server.py`: `IndexError` (raised by
`validate_message_length`) and the module's own `InvalidMessage`. -/
inductive PyErr
  | indexError
  | invalidMessage
deriving DecidableEq, Repr

/-- Modelled from the spec: a ciphertext produced by the opaque cipher
capability of `Utils.py` (not in `src/`) — "encrypt(plaintextFields, key) ->
ciphertext".  It remembers the plaintext and the key so that decryption with
the matching key can recover the plaintext. -/
structure Ciphertext where
  plain : String
  key : Nat
deriving DecidableEq, Repr

/-- One field of a Python tuple message: a string, an encrypted block, or a
queue object (channel pairs are tuples of two queues). -/
inductive Field
  | str (s : String)
  | enc (c : Ciphertext)
  | qid (q : Nat)
deriving DecidableEq, Repr

/-- A value travelling on a queue: a bare string signal or a tuple of
fields. -/
inductive Msg
  | sig (s : String)
  | env (fields : List Field)
deriving DecidableEq, Repr

/-- `self.hello_signal` in `AbstractEntity.__init__`. -/
def helloSignal : String := "HELLO"

/-- `self.error_signal` in `AbstractEntity.__init__`. -/
def errorSignal : String := "ERROR"

/-- `self.finish_signal` in `AbstractStoppableEntity.__init__`. -/
def finishSignal : String := "FINISH"

/-- `self.max_connections_signal` in `AbstractServer.__init__`. -/
def maxConnectionsSignal : String := "MAX_CONNECTIONS_REACHED"

/-- Python `len` on a queue value: length of the string for a signal,
number of fields for a tuple. -/
def Msg.length : Msg → Nat
  | .sig s => s.length
  | .env fs => fs.length

/-- Python indexing `message[i]` on a queue value (only used after the
length has been validated, so the default is never reached on the paths the
code takes): indexing a string yields a one-character string. -/
def Msg.get : Msg → Nat → Field
  | .sig s, i => Field.str (String.singleton (s.toList.getD i ' '))
  | .env fs, i => fs.getD i (Field.str "")

/-- Python `list(message)`: a string explodes into one-character strings, a
tuple into its fields. -/
def Msg.toFields : Msg → List Field
  | .sig s => s.toList.map (fun c => Field.str (String.singleton c))
  | .env fs => fs

/-- Python `message[:-1]` on a queue value. -/
def Msg.dropLast : Msg → Msg
  | .sig s => .sig (String.mk s.toList.dropLast)
  | .env fs => .env fs.dropLast

/-- Modelled from the spec: Python `str()` applied to a field value when it
is interpolated into a colon-joined plaintext (the spec's "sequence of
opaque field values"). -/
def Field.toStr : Field → String
  | .str s => s
  | .enc c => c.plain
  | .qid q => toString q

/-- Modelled from the spec: `decrypt(ciphertext, key)` from `Utils.py` (not
in `src/`).  Decryption with the matching key recovers the colon-joined
plaintext; decrypting anything else yields an opaque garbled string — the
spec says mismatched decryption "fails the run" via the downstream
field-count check, not by raising. -/
def decryptField : Field → Nat → String
  | .enc c, k => if k = c.key then c.plain else "<garbled " ++ toString c.key ++ " " ++ toString k ++ ">"
  | .str s, k => "<garbled-str " ++ s ++ " " ++ toString k ++ ">"
  | .qid q, k => "<garbled-queue " ++ toString q ++ " " ++ toString k ++ ">"

/-- Python `str.split(sep)` on the underlying character list: split at every
occurrence of the separator, never merging adjacent separators, with `[[]]`
for the empty string (Python `''.split(':') == ['']`). -/
def splitChars (sep : Char) : List Char → List (List Char)
  | [] => [[]]
  | c :: cs =>
    match splitChars sep cs with
    | [] => [[]]
    | hd :: tl => if c = sep then [] :: hd :: tl else (c :: hd) :: tl

/-- Python `s.split(sep)` for a one-character separator, as used by
`unpack_nested_message_from_trusted` (`.split(':')`). -/
def pySplit (s : String) (sep : Char) : List String :=
  (splitChars sep s.toList).map (fun l => String.mk l)

/-- Modelled from the spec: `prepare_inner_message(key, *fields)` from
`Utils.py` (not in `src/`) — "build an EncryptedBlock ... over a colon-joined
plaintext tuple" (§3), with the field order of the call site preserved.
`test_client.py` confirms the shape: decrypting with the same key and
splitting on `':'` recovers the fields in order. -/
def prepare_inner_message (key : Nat) (a : String) (b c d : Field) : Ciphertext :=
  ⟨String.intercalate ":" [a, b.toStr, c.toStr, d.toStr], key⟩

/-- `AbstractEntity.validate_message_length`: raise `IndexError` when the
length differs from the intended arity. -/
def validate_message_length (length intended : Nat) : Except PyErr Unit :=
  if length = intended then .ok () else .error .indexError

/-- `AbstractEntity.is_message_error`: `self.error_signal == message`. -/
def is_message_error (m : Msg) : Bool :=
  m = Msg.sig errorSignal

/-- The mutable state of a `ServerWorker` (`ServerWorker.__init__`): the
immutable construction parameters `server_id`/`server_key` and the protocol
fields, all initialised to `None`. -/
structure ServerWorker where
  server_id : Field
  server_key : Nat
  trusted_random_value : Option Field := none
  client_random_value : Option Field := none
  client_client_id : Option Field := none
  client_server_id : Option Field := none
  trusted_nonce : Option String := none
  session_key : Option String := none
  nonce : Option String := none
deriving DecidableEq, Repr

namespace ServerWorker

/-- `ServerWorker.unpack_message_from_client`: validate arity 4, then store
the first three fields.  The raise happens before any assignment, so the
error case leaves the state unchanged. -/
def unpack_message_from_client (w : ServerWorker) (message : Msg) :
    ServerWorker × Except PyErr Unit :=
  match validate_message_length message.length 4 with
  | .error e => (w, .error e)
  | .ok () =>
    ({ w with
        client_random_value := some (message.get 0)
        client_client_id := some (message.get 1)
        client_server_id := some (message.get 2) }, .ok ())

/-- `ServerWorker.validate_server_id_match`: raise `InvalidMessage` unless
`self.client_server_id == self.server_id` (Python `None == x` is `False` for
the values involved, matched here by the `Option` comparison). -/
def validate_server_id_match (w : ServerWorker) : Except PyErr Unit :=
  if w.client_server_id = some w.server_id then .ok () else .error .invalidMessage

/-- `ServerWorker.prepare_nested_message_for_trusted`: mint a fresh nonce
(`str(generate_random_key())`, passed in as `freshNonce` since randomness is
an external capability), store it, and build the inner encrypted block over
(nonce, client_random_value, client_client_id, client_server_id) under
`server_key`. -/
def prepare_nested_message_for_trusted (w : ServerWorker) (freshNonce : String) :
    ServerWorker × Field :=
  let w' := { w with nonce := some freshNonce }
  (w', Field.enc (prepare_inner_message w'.server_key freshNonce
    (w'.client_random_value.getD (Field.str ""))
    (w'.client_client_id.getD (Field.str ""))
    (w'.client_server_id.getD (Field.str ""))))

/-- `ServerWorker.prepare_message_for_trusted_server`: `list(message)` plus
the nested encrypted block, re-packed as a tuple. -/
def prepare_message_for_trusted_server (w : ServerWorker) (freshNonce : String)
    (message : Msg) : ServerWorker × Msg :=
  let (w', nested) := prepare_nested_message_for_trusted w freshNonce
  (w', Msg.env (message.toFields ++ [nested]))

/-- `ServerWorker.process_message_from_client_and_generate_message_to_trusted`:
unpack and validate; any `IndexError`/`InvalidMessage` yields the error
signal, otherwise the arity-5 message for the trusted server. -/
def process_message_from_client_and_generate_message_to_trusted
    (w : ServerWorker) (freshNonce : String) (message : Msg) : ServerWorker × Msg :=
  match unpack_message_from_client w message with
  | (w1, .error _) => (w1, Msg.sig errorSignal)
  | (w1, .ok ()) =>
    match validate_server_id_match w1 with
    | .error _ => (w1, Msg.sig errorSignal)
    | .ok () => prepare_message_for_trusted_server w1 freshNonce message

/-- `ServerWorker.unpack_nested_message_from_trusted`: decrypt with
`server_key`, split on `':'`, validate arity 2, then store
`(trusted_nonce, session_key)`.  The raise precedes the assignments. -/
def unpack_nested_message_from_trusted (w : ServerWorker) (encrypted_message : Field) :
    ServerWorker × Except PyErr Unit :=
  let decrypted := pySplit (decryptField encrypted_message w.server_key) ':'
  match validate_message_length decrypted.length 2 with
  | .error e => (w, .error e)
  | .ok () =>
    ({ w with
        trusted_nonce := some (decrypted.getD 0 "")
        session_key := some (decrypted.getD 1 "") }, .ok ())

/-- `ServerWorker.unpack_message_from_trusted`: validate arity 3, store the
first field, then unpack the nested block at index 2.  The first assignment
persists even when the nested unpack raises. -/
def unpack_message_from_trusted (w : ServerWorker) (message : Msg) :
    ServerWorker × Except PyErr Unit :=
  match validate_message_length message.length 3 with
  | .error e => (w, .error e)
  | .ok () =>
    let w1 := { w with trusted_random_value := some (message.get 0) }
    unpack_nested_message_from_trusted w1 (message.get 2)

/-- `ServerWorker.validate_random_value_from_trusted`: raise unless
`self.trusted_random_value == self.client_random_value`. -/
def validate_random_value_from_trusted (w : ServerWorker) : Except PyErr Unit :=
  if w.trusted_random_value = w.client_random_value then .ok ()
  else .error .invalidMessage

/-- `ServerWorker.validate_nested_message_from_trusted`: raise unless
`self.trusted_nonce == self.nonce`. -/
def validate_nested_message_from_trusted (w : ServerWorker) : Except PyErr Unit :=
  if w.trusted_nonce = w.nonce then .ok () else .error .invalidMessage

/-- `ServerWorker.process_message_from_trusted_and_generate_response_for_client`:
unpack, validate the echoed random value, validate the echoed nonce; any
failure yields the error signal, otherwise `message[:-1]`. -/
def process_message_from_trusted_and_generate_response_for_client
    (w : ServerWorker) (message : Msg) : ServerWorker × Msg :=
  match unpack_message_from_trusted w message with
  | (w1, .error _) => (w1, Msg.sig errorSignal)
  | (w1, .ok ()) =>
    match validate_random_value_from_trusted w1 with
    | .error _ => (w1, Msg.sig errorSignal)
    | .ok () =>
      match validate_nested_message_from_trusted w1 with
      | .error _ => (w1, Msg.sig errorSignal)
      | .ok () => (w1, message.dropLast)

/-- A queue effect performed by `ServerWorker.run`:
the blocking `get` on the worker's input queue, a `put` on the worker's
output queue, `connect_to_trusted` (the `establish_connection` handshake
with the trusted server: a `HELLO` put plus a blocking get), a `put` on the
trusted server worker's input queue, and the blocking get on its output
queue. -/
inductive Event
  | getInput
  | putOutput (m : Msg)
  | connectTrusted
  | putTrusted (m : Msg)
  | getTrusted
deriving DecidableEq, Repr

/-- `ServerWorker.run`, as a function of the worker state, the fresh nonce
the run would mint, the message waiting on the input queue and the message
the trusted server would answer with; returns the final state and the trace
of queue effects. -/
def run (w : ServerWorker) (freshNonce : String) (message_from_client : Msg)
    (message_from_trusted : Msg) : ServerWorker × List Event :=
  let step1 :=
    process_message_from_client_and_generate_message_to_trusted w freshNonce
      message_from_client
  if is_message_error step1.2 then
    (step1.1, [.getInput, .putOutput (Msg.sig errorSignal)])
  else
    let step2 :=
      process_message_from_trusted_and_generate_response_for_client step1.1
        message_from_trusted
    (step2.1, [.getInput, .connectTrusted, .putTrusted step1.2, .getTrusted,
          .putOutput step2.2])

end ServerWorker

/-- `AbstractStoppableEntity.is_finish_signal`: `message == self.finish_signal`. -/
def is_finish_signal (m : Msg) : Bool :=
  m = Msg.sig finishSignal

/-- `AbstractStoppableEntity.get_from_queue`, restricted to its effect on
`self.waiting_queues`: the queue (modelled by an identifier) is appended
when not already recorded, before the blocking `get`. -/
def get_from_queue (waiting_queues : List Nat) (queue : Nat) : List Nat :=
  if queue ∈ waiting_queues then waiting_queues else waiting_queues ++ [queue]

/-- The `waiting_queues` list after a whole sequence of `get_from_queue`
calls, in order. -/
def get_from_queue_all (waiting_queues : List Nat) (calls : List Nat) : List Nat :=
  calls.foldl get_from_queue waiting_queues

/-- `AbstractStoppableEntity.finish`: put the finish signal on every queue
in `waiting_queues`; returned as the list of `(queue, value)` puts
performed. -/
def finish (waiting_queues : List Nat) : List (Nat × String) :=
  waiting_queues.map (fun q => (q, finishSignal))

/-- A queue effect performed by `AbstractServer.run`: the blocking get on
the bounded input queue and a put on the output queue. -/
inductive SrvEvent
  | getInput
  | putOutput (m : Msg)
deriving DecidableEq, Repr

/-- `AbstractServer.connect`: build a new worker, start it, and hand back
the pair `(worker.input_queue, worker.output_queue)` — a tuple of two queue
objects, with identifiers drawn from the counter `k`, two per worker. -/
def AbstractServer.connect (k : Nat) : Msg :=
  Msg.env [Field.qid (2 * k), Field.qid (2 * k + 1)]

/-- `AbstractServer.run`: loop on the input queue while `running`; a finish
signal clears `running` and ends the loop without a put, any other message
is answered with `connect()` on the output queue.  The function consumes the
list of messages the input queue would deliver; exhausting the list stands
for a receive that is still blocked. -/
def AbstractServer.run (k : Nat) : List Msg → List SrvEvent
  | [] => []
  | m :: rest =>
    if is_finish_signal m then [SrvEvent.getInput]
    else
      SrvEvent.getInput :: SrvEvent.putOutput (AbstractServer.connect k) ::
        AbstractServer.run (k + 1) rest

/-! ### Helper lemmas on the two processing functions -/

namespace ServerWorker

/-- A message of the wrong arity is rejected by the client-leg processing
with the state untouched. -/
lemma processClient_wrong_len (w : ServerWorker) (freshNonce : String) (m : Msg)
    (h : m.length ≠ 4) :
    process_message_from_client_and_generate_message_to_trusted w freshNonce m =
      (w, Msg.sig errorSignal) := by
  simp [process_message_from_client_and_generate_message_to_trusted,
    unpack_message_from_client, validate_message_length, h]

/-- A 4-field message whose asserted server identity differs from the
worker's own is rejected by the client-leg processing. -/
lemma processClient_id_mismatch (w : ServerWorker) (freshNonce : String) (m : Msg)
    (h4 : m.length = 4) (hid : m.get 2 ≠ w.server_id) :
    (process_message_from_client_and_generate_message_to_trusted w freshNonce m).2 =
      Msg.sig errorSignal := by
  simp [process_message_from_client_and_generate_message_to_trusted,
    unpack_message_from_client, validate_message_length, h4,
    validate_server_id_match, hid]

/-- A 4-field message whose asserted server identity matches is accepted:
the stored fields and minted nonce are recorded and the arity-5 message for
the trusted server is produced. -/
lemma processClient_success (w : ServerWorker) (freshNonce : String) (m : Msg)
    (h4 : m.length = 4) (hid : m.get 2 = w.server_id) :
    process_message_from_client_and_generate_message_to_trusted w freshNonce m =
      ({ w with
          client_random_value := some (m.get 0)
          client_client_id := some (m.get 1)
          client_server_id := some (m.get 2)
          nonce := some freshNonce },
       Msg.env (m.toFields ++ [Field.enc (prepare_inner_message w.server_key
          freshNonce (m.get 0) (m.get 1) (m.get 2))])) := by
  simp [process_message_from_client_and_generate_message_to_trusted,
    unpack_message_from_client, validate_message_length, h4,
    validate_server_id_match, hid, prepare_message_for_trusted_server,
    prepare_nested_message_for_trusted]

/-- The client-leg processing yields either the error signal or a tuple
message (never any other bare signal). -/
lemma processClient_cases (w : ServerWorker) (freshNonce : String) (m : Msg) :
    (process_message_from_client_and_generate_message_to_trusted w freshNonce m).2 =
      Msg.sig errorSignal ∨
    ∃ fs, (process_message_from_client_and_generate_message_to_trusted w freshNonce m).2 =
      Msg.env fs := by
  by_cases h4 : m.length = 4
  · by_cases hid : m.get 2 = w.server_id
    · right
      exact ⟨_, by rw [processClient_success w freshNonce m h4 hid]⟩
    · left
      exact processClient_id_mismatch w freshNonce m h4 hid
  · left
    rw [processClient_wrong_len w freshNonce m h4]

/-- A trusted-server reply of the wrong arity is rejected with the state
untouched. -/
lemma processTrusted_wrong_len (w : ServerWorker) (m : Msg) (h : m.length ≠ 3) :
    process_message_from_trusted_and_generate_response_for_client w m =
      (w, Msg.sig errorSignal) := by
  simp [process_message_from_trusted_and_generate_response_for_client,
    unpack_message_from_trusted, validate_message_length, h]

/-- A 3-field trusted-server reply whose encrypted block does not decrypt
and split into exactly 2 fields is rejected. -/
lemma processTrusted_bad_nested (w : ServerWorker) (m : Msg) (h3 : m.length = 3)
    (h2 : (pySplit (decryptField (m.get 2) w.server_key) ':').length ≠ 2) :
    (process_message_from_trusted_and_generate_response_for_client w m).2 =
      Msg.sig errorSignal := by
  simp [process_message_from_trusted_and_generate_response_for_client,
    unpack_message_from_trusted, validate_message_length, h3,
    unpack_nested_message_from_trusted, h2]

/-- A 3-field trusted-server reply whose first field differs from the
stored client random value is rejected (whether or not the nested block is
well-formed). -/
lemma processTrusted_random_mismatch (w : ServerWorker) (m : Msg)
    (h3 : m.length = 3) (hr : some (m.get 0) ≠ w.client_random_value) :
    (process_message_from_trusted_and_generate_response_for_client w m).2 =
      Msg.sig errorSignal := by
  by_cases h2 : (pySplit (decryptField (m.get 2) w.server_key) ':').length = 2
  · simp [process_message_from_trusted_and_generate_response_for_client,
      unpack_message_from_trusted, validate_message_length, h3,
      unpack_nested_message_from_trusted, h2,
      validate_random_value_from_trusted, hr]
  · exact processTrusted_bad_nested w m h3 h2

/-- A 3-field trusted-server reply whose decrypted block is well-formed but
echoes a nonce different from the worker's own is rejected. -/
lemma processTrusted_nonce_mismatch (w : ServerWorker) (m : Msg)
    (h3 : m.length = 3)
    (h2 : (pySplit (decryptField (m.get 2) w.server_key) ':').length = 2)
    (hn : some ((pySplit (decryptField (m.get 2) w.server_key) ':').getD 0 "") ≠
      w.nonce) :
    (process_message_from_trusted_and_generate_response_for_client w m).2 =
      Msg.sig errorSignal := by
  by_cases hr : some (m.get 0) = w.client_random_value
  · obtain ⟨a, b, hab⟩ := List.length_eq_two.mp h2
    rw [hab] at hn
    simp only [List.getD_cons_zero] at hn
    simp [process_message_from_trusted_and_generate_response_for_client,
      unpack_message_from_trusted, validate_message_length, h3,
      unpack_nested_message_from_trusted, hab,
      validate_random_value_from_trusted, hr,
      validate_nested_message_from_trusted, hn]
  · exact processTrusted_random_mismatch w m h3 hr

/-- When every validation of the trusted-server reply succeeds, the result
is the reply with its last field removed. -/
lemma processTrusted_success (w : ServerWorker) (m : Msg) (h3 : m.length = 3)
    (h2 : (pySplit (decryptField (m.get 2) w.server_key) ':').length = 2)
    (hr : some (m.get 0) = w.client_random_value)
    (hn : some ((pySplit (decryptField (m.get 2) w.server_key) ':').getD 0 "") =
      w.nonce) :
    (process_message_from_trusted_and_generate_response_for_client w m).2 =
      m.dropLast := by
  obtain ⟨a, b, hab⟩ := List.length_eq_two.mp h2
  rw [hab] at hn
  simp only [List.getD_cons_zero] at hn
  simp [process_message_from_trusted_and_generate_response_for_client,
    unpack_message_from_trusted, validate_message_length, h3,
    unpack_nested_message_from_trusted, hab,
    validate_random_value_from_trusted, hr,
    validate_nested_message_from_trusted, ← hn]

/-- The trusted-leg processing yields either the error signal or the reply
with the last field removed, the latter only for arity-3 replies. -/
lemma processTrusted_cases (w : ServerWorker) (m : Msg) :
    (process_message_from_trusted_and_generate_response_for_client w m).2 =
      Msg.sig errorSignal ∨
    ((process_message_from_trusted_and_generate_response_for_client w m).2 =
      m.dropLast ∧ m.length = 3) := by
  by_cases h3 : m.length = 3
  · by_cases h2 : (pySplit (decryptField (m.get 2) w.server_key) ':').length = 2
    · by_cases hr : some (m.get 0) = w.client_random_value
      · by_cases hn :
          some ((pySplit (decryptField (m.get 2) w.server_key) ':').getD 0 "") =
            w.nonce
        · exact Or.inr ⟨processTrusted_success w m h3 h2 hr hn, h3⟩
        · exact Or.inl (processTrusted_nonce_mismatch w m h3 h2 hn)
      · exact Or.inl (processTrusted_random_mismatch w m h3 hr)
    · exact Or.inl (processTrusted_bad_nested w m h3 h2)
  · exact Or.inl (by rw [processTrusted_wrong_len w m h3])

/-- When the client-leg processing yields the error signal, `run` performs
exactly the input get and the error put. -/
lemma run_of_error (w : ServerWorker) (freshNonce : String) (mc mt : Msg)
    (h : (process_message_from_client_and_generate_message_to_trusted w freshNonce mc).2 =
      Msg.sig errorSignal) :
    run w freshNonce mc mt =
      ((process_message_from_client_and_generate_message_to_trusted w freshNonce mc).1,
       [Event.getInput, Event.putOutput (Msg.sig errorSignal)]) := by
  simp [run, h, is_message_error]

/-- When the client-leg processing yields a tuple message, `run` performs
the full five-effect exchange. -/
lemma run_of_env (w : ServerWorker) (freshNonce : String) (mc mt : Msg)
    (fs : List Field)
    (h : (process_message_from_client_and_generate_message_to_trusted w freshNonce mc).2 =
      Msg.env fs) :
    run w freshNonce mc mt =
      ((process_message_from_trusted_and_generate_response_for_client
          (process_message_from_client_and_generate_message_to_trusted w freshNonce mc).1
          mt).1,
       [Event.getInput, Event.connectTrusted, Event.putTrusted (Msg.env fs),
        Event.getTrusted,
        Event.putOutput ((process_message_from_trusted_and_generate_response_for_client
          (process_message_from_client_and_generate_message_to_trusted w freshNonce mc).1
          mt).2)]) := by
  simp [run, h, is_message_error, errorSignal]

/-- Recogniser for the input-queue get event. -/
def Event.isGetInput : Event → Bool
  | .getInput => true
  | _ => false

/-- Recogniser for the output-queue put event. -/
def Event.isPutOutput : Event → Bool
  | .putOutput _ => true
  | _ => false

/-- Recogniser for the trusted-server handshake event. -/
def Event.isConnectTrusted : Event → Bool
  | .connectTrusted => true
  | _ => false

/-- Recogniser for the trusted-server put event. -/
def Event.isPutTrusted : Event → Bool
  | .putTrusted _ => true
  | _ => false

/-- Recogniser for the trusted-server get event. -/
def Event.isGetTrusted : Event → Bool
  | .getTrusted => true
  | _ => false

end ServerWorker

/-- Python `message[:-1]` shortens the value by one (string or tuple). -/
lemma Msg.length_dropLast (m : Msg) : m.dropLast.length = m.length - 1 := by
  cases m with
  | sig s =>
    simp [Msg.dropLast, Msg.length, String.length_mk, List.length_dropLast]
  | env fs => simp [Msg.dropLast, Msg.length, List.length_dropLast]

/-- A worker used to instantiate the universally quantified results on
concrete inputs. -/
def sampleWorker : ServerWorker :=
  { server_id := Field.str "s1", server_key := 7 }

/-- A worker state as it stands after a successful client leg, used to
instantiate the trusted-leg results on concrete inputs. -/
def sampleWorkerAfterClient : ServerWorker :=
  { server_id := Field.str "s1", server_key := 7,
    client_random_value := some (Field.str "r"),
    client_client_id := some (Field.str "c1"),
    client_server_id := some (Field.str "s1"),
    nonce := some "N" }

/-! ### Claim theorems -/

/-- C1: for every 4-field client message whose third field (the asserted
server identity) differs from the worker's own `server_id`, `ServerWorker.run`
puts the `ERROR` signal on its output queue, and the trace contains neither a
`connect_to_trusted` handshake nor any put on a trusted-server queue. -/
theorem claim_C1_wrong_server_id_errors_without_trusted_contact
    (w : ServerWorker) (freshNonce : String) (fs : List Field) (mt : Msg)
    (hlen : fs.length = 4)
    (hmismatch : (Msg.env fs).get 2 ≠ w.server_id) :
    (w.run freshNonce (Msg.env fs) mt).2 =
      [ServerWorker.Event.getInput,
       ServerWorker.Event.putOutput (Msg.sig errorSignal)] ∧
    ServerWorker.Event.connectTrusted ∉ (w.run freshNonce (Msg.env fs) mt).2 ∧
    ∀ m, ServerWorker.Event.putTrusted m ∉ (w.run freshNonce (Msg.env fs) mt).2 := by
  have h4 : (Msg.env fs).length = 4 := by simpa [Msg.length] using hlen
  have herr := ServerWorker.processClient_id_mismatch w freshNonce (Msg.env fs) h4
    hmismatch
  have hrun := ServerWorker.run_of_error w freshNonce (Msg.env fs) mt herr
  refine ⟨by rw [hrun], ?_, ?_⟩
  · rw [hrun]
    simp
  · intro m
    rw [hrun]
    simp

/-- C1 witness: a concrete client message asserting server identity `s2`
against a worker whose identity is `s1` is answered by `ERROR` alone. -/
theorem claim_C1_witness :
    (sampleWorker.run "n1"
        (Msg.env [Field.str "r", Field.str "c1", Field.str "s2", Field.str "b"])
        (Msg.sig "x")).2 =
      [ServerWorker.Event.getInput,
       ServerWorker.Event.putOutput (Msg.sig errorSignal)] ∧
    ServerWorker.Event.connectTrusted ∉
      (sampleWorker.run "n1"
        (Msg.env [Field.str "r", Field.str "c1", Field.str "s2", Field.str "b"])
        (Msg.sig "x")).2 ∧
    ∀ m, ServerWorker.Event.putTrusted m ∉
      (sampleWorker.run "n1"
        (Msg.env [Field.str "r", Field.str "c1", Field.str "s2", Field.str "b"])
        (Msg.sig "x")).2 :=
  claim_C1_wrong_server_id_errors_without_trusted_contact sampleWorker "n1"
    [Field.str "r", Field.str "c1", Field.str "s2", Field.str "b"] (Msg.sig "x")
    (by decide) (by decide)

/-- C2: when the worker processes the trusted server's 3-field reply with a
minted nonce `n` on record, it decrypts the third field with its own
`server_key` and splits on `':'`; if the split is not exactly 2 fields, or
the first recovered field differs from `n`, the processing returns the
`ERROR` signal. -/
theorem claim_C2_trusted_reply_nested_validation
    (w : ServerWorker) (m : Msg) (n : String)
    (hlen : m.length = 3) (hnonce : w.nonce = some n)
    (hbad : (pySplit (decryptField (m.get 2) w.server_key) ':').length ≠ 2 ∨
      (pySplit (decryptField (m.get 2) w.server_key) ':').getD 0 "" ≠ n) :
    (ServerWorker.process_message_from_trusted_and_generate_response_for_client
        w m).2 = Msg.sig errorSignal := by
  by_cases h2 : (pySplit (decryptField (m.get 2) w.server_key) ':').length = 2
  · have hb := hbad.resolve_left (not_not_intro h2)
    refine ServerWorker.processTrusted_nonce_mismatch w m hlen h2 ?_
    rw [hnonce]
    simpa using hb
  · exact ServerWorker.processTrusted_bad_nested w m hlen h2

/-- C2 witness: a trusted reply whose server block decrypts to 3 fields is
rejected. -/
theorem claim_C2_witness :
    (ServerWorker.process_message_from_trusted_and_generate_response_for_client
        sampleWorkerAfterClient
        (Msg.env [Field.str "r", Field.str "x", Field.enc ⟨"a:b:c", 7⟩])).2 =
      Msg.sig errorSignal :=
  claim_C2_trusted_reply_nested_validation sampleWorkerAfterClient
    (Msg.env [Field.str "r", Field.str "x", Field.enc ⟨"a:b:c", 7⟩]) "N"
    (by decide) (by decide) (by decide)

/-- C3: a message of the wrong arity at each leg is rejected with the
`ERROR` signal and the leg proceeds no further: a client message of arity ≠ 4
and a trusted reply of arity ≠ 3 are rejected with the worker state
untouched, and a trusted reply whose decrypted server block is not exactly 2
fields is rejected. -/
theorem claim_C3_arity_mismatch_rejected :
    (∀ (w : ServerWorker) (freshNonce : String) (m : Msg), m.length ≠ 4 →
      ServerWorker.process_message_from_client_and_generate_message_to_trusted
          w freshNonce m = (w, Msg.sig errorSignal)) ∧
    (∀ (w : ServerWorker) (m : Msg), m.length ≠ 3 →
      ServerWorker.process_message_from_trusted_and_generate_response_for_client
          w m = (w, Msg.sig errorSignal)) ∧
    (∀ (w : ServerWorker) (m : Msg), m.length = 3 →
      (pySplit (decryptField (m.get 2) w.server_key) ':').length ≠ 2 →
      (ServerWorker.process_message_from_trusted_and_generate_response_for_client
          w m).2 = Msg.sig errorSignal) :=
  ⟨fun w freshNonce m h => ServerWorker.processClient_wrong_len w freshNonce m h,
   fun w m h => ServerWorker.processTrusted_wrong_len w m h,
   fun w m h3 h2 => ServerWorker.processTrusted_bad_nested w m h3 h2⟩

/-- C3 witness: a 2-field client message is rejected outright. -/
theorem claim_C3_witness :
    ServerWorker.process_message_from_client_and_generate_message_to_trusted
        sampleWorker "n1" (Msg.env [Field.str "r", Field.str "c1"]) =
      (sampleWorker, Msg.sig errorSignal) :=
  claim_C3_arity_mismatch_rejected.1 sampleWorker "n1"
    (Msg.env [Field.str "r", Field.str "c1"]) (by decide)

/-- C4: a valid 4-field client message is forwarded to the trusted server
as a 5-tuple: the original 4 fields unchanged, plus an encrypted block under
the worker's `server_key` over (fresh nonce, random challenge, client
identity, server identity), in that order. -/
theorem claim_C4_forwarded_message_shape
    (w : ServerWorker) (freshNonce : String) (fs : List Field) (mt : Msg)
    (hlen : fs.length = 4) (hid : (Msg.env fs).get 2 = w.server_id) :
    ServerWorker.Event.putTrusted (Msg.env (fs ++
      [Field.enc (prepare_inner_message w.server_key freshNonce
        ((Msg.env fs).get 0) ((Msg.env fs).get 1) ((Msg.env fs).get 2))])) ∈
      (w.run freshNonce (Msg.env fs) mt).2 := by
  have h4 : (Msg.env fs).length = 4 := by simpa [Msg.length] using hlen
  have hsucc := ServerWorker.processClient_success w freshNonce (Msg.env fs) h4 hid
  have henv : (ServerWorker.process_message_from_client_and_generate_message_to_trusted
      w freshNonce (Msg.env fs)).2 =
      Msg.env ((Msg.env fs).toFields ++ [Field.enc (prepare_inner_message w.server_key
        freshNonce ((Msg.env fs).get 0) ((Msg.env fs).get 1) ((Msg.env fs).get 2))]) := by
    rw [hsucc]
  have hrun := ServerWorker.run_of_env w freshNonce (Msg.env fs) mt _ henv
  rw [hrun]
  simp [Msg.toFields]

/-- C4 witness: the concrete forwarded 5-tuple for a valid client message. -/
theorem claim_C4_witness :
    ServerWorker.Event.putTrusted (Msg.env
      ([Field.str "r", Field.str "c1", Field.str "s1", Field.enc ⟨"x", 3⟩] ++
       [Field.enc (prepare_inner_message 7 "N"
         ((Msg.env [Field.str "r", Field.str "c1", Field.str "s1",
            Field.enc ⟨"x", 3⟩]).get 0)
         ((Msg.env [Field.str "r", Field.str "c1", Field.str "s1",
            Field.enc ⟨"x", 3⟩]).get 1)
         ((Msg.env [Field.str "r", Field.str "c1", Field.str "s1",
            Field.enc ⟨"x", 3⟩]).get 2))])) ∈
      (sampleWorker.run "N"
        (Msg.env [Field.str "r", Field.str "c1", Field.str "s1", Field.enc ⟨"x", 3⟩])
        (Msg.sig "y")).2 :=
  claim_C4_forwarded_message_shape sampleWorker "N"
    [Field.str "r", Field.str "c1", Field.str "s1", Field.enc ⟨"x", 3⟩]
    (Msg.sig "y") (by decide) (by decide)

/-- C5: when every validation of the trusted server's 3-field reply
succeeds, the message the worker puts on its output queue for the client is
exactly that reply with its last field removed — the 2-tuple of the first
two fields unchanged. -/
theorem claim_C5_success_reply_strips_last_field
    (w : ServerWorker) (a b c : Field)
    (h2 : (pySplit (decryptField c w.server_key) ':').length = 2)
    (hr : some a = w.client_random_value)
    (hn : some ((pySplit (decryptField c w.server_key) ':').getD 0 "") = w.nonce) :
    (ServerWorker.process_message_from_trusted_and_generate_response_for_client
        w (Msg.env [a, b, c])).2 = Msg.env [a, b] := by
  have h3 : (Msg.env [a, b, c]).length = 3 := rfl
  have hget2 : (Msg.env [a, b, c]).get 2 = c := rfl
  have hget0 : (Msg.env [a, b, c]).get 0 = a := rfl
  have := ServerWorker.processTrusted_success w (Msg.env [a, b, c]) h3
    (by rw [hget2]; exact h2) (by rw [hget0]; exact hr) (by rw [hget2]; exact hn)
  rw [this]
  rfl

/-- C5 witness: a concrete fully valid trusted reply is forwarded as its
first two fields. -/
theorem claim_C5_witness :
    (ServerWorker.process_message_from_trusted_and_generate_response_for_client
        sampleWorkerAfterClient
        (Msg.env [Field.str "r", Field.enc ⟨"cb", 5⟩, Field.enc ⟨"N:SK", 7⟩])).2 =
      Msg.env [Field.str "r", Field.enc ⟨"cb", 5⟩] :=
  claim_C5_success_reply_strips_last_field sampleWorkerAfterClient
    (Field.str "r") (Field.enc ⟨"cb", 5⟩) (Field.enc ⟨"N:SK", 7⟩)
    (by decide) (by decide) (by decide)

/-- C6 counterexample: the claim says a `ServerWorker` that receives the
`FINISH` marker on its input queue ends work without emitting the `ERROR`
signal; on the code, `ServerWorker.run` never checks `is_finish_signal`, so
a concrete worker receiving `FINISH` puts `ERROR` on its output queue (the
marker fails the 4-field validation). -/
theorem claim_C6_counterexample :
    (sampleWorker.run "n1" (Msg.sig finishSignal) (Msg.sig "x")).2 =
      [ServerWorker.Event.getInput,
       ServerWorker.Event.putOutput (Msg.sig errorSignal)] := by
  decide

/-- C6 amended: `AbstractServer.run` does treat the `FINISH` marker on a
blocked receive as an immediate end-of-work signal distinct from an error
(it stops without putting anything); `ServerWorker.run`, however, does not
special-case `FINISH`: on receiving it the worker still terminates after its
single pass, but puts the `ERROR` signal on its output queue, because the
marker fails the 4-field validation of a client message. -/
theorem claim_C6_amended_finish_handling :
    (∀ (k : Nat) (rest : List Msg),
       AbstractServer.run k (Msg.sig finishSignal :: rest) = [SrvEvent.getInput]) ∧
    (∀ (w : ServerWorker) (freshNonce : String) (mt : Msg),
       (w.run freshNonce (Msg.sig finishSignal) mt).2 =
         [ServerWorker.Event.getInput,
          ServerWorker.Event.putOutput (Msg.sig errorSignal)]) := by
  constructor
  · intro k rest
    simp [AbstractServer.run, is_finish_signal]
  · intro w freshNonce mt
    have h : (Msg.sig finishSignal).length ≠ 4 := by decide
    have herr : (ServerWorker.process_message_from_client_and_generate_message_to_trusted
        w freshNonce (Msg.sig finishSignal)).2 = Msg.sig errorSignal := by
      rw [ServerWorker.processClient_wrong_len w freshNonce (Msg.sig finishSignal) h]
    rw [ServerWorker.run_of_error w freshNonce (Msg.sig finishSignal) mt herr]

/-- Any queue already recorded stays recorded across a further
`get_from_queue` call. -/
lemma mem_get_from_queue_mono (qs : List Nat) (q q' : Nat) (h : q ∈ qs) :
    q ∈ get_from_queue qs q' := by
  unfold get_from_queue
  split
  · exact h
  · exact List.mem_append_left _ h

/-- The queue just blocked on is recorded. -/
lemma mem_get_from_queue_self (qs : List Nat) (q : Nat) : q ∈ get_from_queue qs q := by
  unfold get_from_queue
  split
  · assumption
  · exact List.mem_append_right _ (List.mem_singleton.mpr rfl)

/-- Membership in `waiting_queues` is preserved by any further sequence of
`get_from_queue` calls. -/
lemma mem_get_from_queue_all_mono (qs : List Nat) (calls : List Nat) (q : Nat)
    (h : q ∈ qs) : q ∈ get_from_queue_all qs calls := by
  induction calls generalizing qs with
  | nil => exact h
  | cons c rest ih => exact ih (get_from_queue qs c) (mem_get_from_queue_mono qs q c h)

/-- Every queue blocked on during a sequence of `get_from_queue` calls ends
up recorded in `waiting_queues`. -/
lemma mem_get_from_queue_all_of_mem_calls (qs calls : List Nat) (q : Nat)
    (h : q ∈ calls) : q ∈ get_from_queue_all qs calls := by
  induction calls generalizing qs with
  | nil => simp at h
  | cons c rest ih =>
    rcases List.mem_cons.mp h with h1 | h1
    · subst h1
      exact mem_get_from_queue_all_mono (get_from_queue qs q) rest q
        (mem_get_from_queue_self qs q)
    · exact ih (get_from_queue qs c) h1

/-- C7: membership in `waiting_queues` is an invariant preserved by every
`get_from_queue` call, every queue ever blocked on via `get_from_queue` is
recorded, and `finish()` therefore puts the `FINISH` marker on each such
queue. -/
theorem claim_C7_waiting_queues_invariant :
    (∀ (qs : List Nat) (q q' : Nat), q ∈ qs → q ∈ get_from_queue qs q') ∧
    (∀ (qs calls : List Nat) (q : Nat), q ∈ calls →
       q ∈ get_from_queue_all qs calls ∧
       (q, finishSignal) ∈ finish (get_from_queue_all qs calls)) :=
  ⟨mem_get_from_queue_mono,
   fun qs calls q h =>
     have hm := mem_get_from_queue_all_of_mem_calls qs calls q h
     ⟨hm, List.mem_map_of_mem _ hm⟩⟩

/-- C7 witness: queue 3 stays recorded across a later call, and a queue 5
blocked on from a fresh worker is recorded and receives `FINISH`. -/
theorem claim_C7_witness :
    (3 ∈ get_from_queue [3] 4) ∧
    (5 ∈ get_from_queue_all [] [5] ∧
     (5, finishSignal) ∈ finish (get_from_queue_all [] [5])) :=
  ⟨claim_C7_waiting_queues_invariant.1 [3] 3 4 (by decide),
   claim_C7_waiting_queues_invariant.2 [] [5] 5 (by decide)⟩

/-- C8: a `ServerWorker` is single-use — every execution of `run` performs
exactly one receive of a client message, exactly one put on its output
queue, and at most one handshake, put and receive on the trusted-server
queues. -/
theorem claim_C8_worker_single_use (w : ServerWorker) (freshNonce : String)
    (mc mt : Msg) :
    (w.run freshNonce mc mt).2.countP ServerWorker.Event.isGetInput = 1 ∧
    (w.run freshNonce mc mt).2.countP ServerWorker.Event.isPutOutput = 1 ∧
    (w.run freshNonce mc mt).2.countP ServerWorker.Event.isConnectTrusted ≤ 1 ∧
    (w.run freshNonce mc mt).2.countP ServerWorker.Event.isPutTrusted ≤ 1 ∧
    (w.run freshNonce mc mt).2.countP ServerWorker.Event.isGetTrusted ≤ 1 := by
  rcases ServerWorker.processClient_cases w freshNonce mc with h | ⟨fs, h⟩
  · rw [ServerWorker.run_of_error w freshNonce mc mt h]
    refine ⟨?_, ?_, ?_, ?_, ?_⟩ <;>
      simp [List.countP_cons, ServerWorker.Event.isGetInput,
        ServerWorker.Event.isPutOutput, ServerWorker.Event.isConnectTrusted,
        ServerWorker.Event.isPutTrusted, ServerWorker.Event.isGetTrusted]
  · rw [ServerWorker.run_of_env w freshNonce mc mt fs h]
    refine ⟨?_, ?_, ?_, ?_, ?_⟩ <;>
      simp [List.countP_cons, ServerWorker.Event.isGetInput,
        ServerWorker.Event.isPutOutput, ServerWorker.Event.isConnectTrusted,
        ServerWorker.Event.isPutTrusted, ServerWorker.Event.isGetTrusted]

/-- The trusted-leg processing never produces the `MAX_CONNECTIONS_REACHED`
signal: it yields either the error signal or the arity-3 reply shortened to
2 fields, and the reserved signal is a 23-character string. -/
lemma processTrusted_ne_max (w : ServerWorker) (mt : Msg) :
    (ServerWorker.process_message_from_trusted_and_generate_response_for_client
        w mt).2 ≠ Msg.sig maxConnectionsSignal := by
  rcases ServerWorker.processTrusted_cases w mt with h | ⟨h, hlen⟩
  · rw [h]
    decide
  · rw [h]
    intro hcontra
    have h1 : mt.dropLast.length = mt.length - 1 := Msg.length_dropLast mt
    rw [hlen, hcontra] at h1
    exact absurd h1 (by decide)

/-- C9: the `MAX_CONNECTIONS_REACHED` signal is defined but never emitted —
no execution of `ServerWorker.run` puts it on the output or trusted-server
queue, no execution of `AbstractServer.run` puts it on the output queue, and
`finish()` never puts it on a waiting queue. -/
theorem claim_C9_max_connections_never_emitted :
    (∀ (w : ServerWorker) (freshNonce : String) (mc mt : Msg),
       ServerWorker.Event.putOutput (Msg.sig maxConnectionsSignal) ∉
         (w.run freshNonce mc mt).2 ∧
       ServerWorker.Event.putTrusted (Msg.sig maxConnectionsSignal) ∉
         (w.run freshNonce mc mt).2) ∧
    (∀ (k : Nat) (inputs : List Msg),
       SrvEvent.putOutput (Msg.sig maxConnectionsSignal) ∉
         AbstractServer.run k inputs) ∧
    (∀ (qs : List Nat) (q : Nat), (q, maxConnectionsSignal) ∉ finish qs) := by
  refine ⟨?_, ?_, ?_⟩
  · intro w freshNonce mc mt
    rcases ServerWorker.processClient_cases w freshNonce mc with h | ⟨fs, h⟩
    · rw [ServerWorker.run_of_error w freshNonce mc mt h]
      exact ⟨by simp [maxConnectionsSignal, errorSignal], by simp⟩
    · rw [ServerWorker.run_of_env w freshNonce mc mt fs h]
      constructor
      · intro hmem
        simp at hmem
        exact processTrusted_ne_max _ mt hmem.symm
      · intro hmem
        simp at hmem
  · intro k inputs
    induction inputs generalizing k with
    | nil => simp [AbstractServer.run]
    | cons m rest ih =>
      by_cases hf : is_finish_signal m
      · simp [AbstractServer.run, hf]
      · simp [AbstractServer.run, hf, AbstractServer.connect, ih (k + 1)]
  · intro qs q
    simp [finish, maxConnectionsSignal, finishSignal]

/-- C9 witness: on a concrete run the reserved signal is indeed absent from
the output-queue puts. -/
theorem claim_C9_witness :
    ServerWorker.Event.putOutput (Msg.sig maxConnectionsSignal) ∉
      (sampleWorker.run "n1" (Msg.sig "x") (Msg.sig "y")).2 :=
  (claim_C9_max_connections_never_emitted.1 sampleWorker "n1" (Msg.sig "x")
    (Msg.sig "y")).1

/-- C10: beyond the spec's two rejection conditions, the worker also rejects
a 3-field trusted reply whose first field differs from the stored client
random challenge, and a reply is forwarded (result is not `ERROR`) only if
the two random challenge values are equal. -/
theorem claim_C10_random_challenge_check :
    (∀ (w : ServerWorker) (m : Msg), m.length = 3 →
       some (m.get 0) ≠ w.client_random_value →
       (ServerWorker.process_message_from_trusted_and_generate_response_for_client
           w m).2 = Msg.sig errorSignal) ∧
    (∀ (w : ServerWorker) (m : Msg),
       (ServerWorker.process_message_from_trusted_and_generate_response_for_client
           w m).2 ≠ Msg.sig errorSignal →
       some (m.get 0) = w.client_random_value) := by
  constructor
  · exact fun w m h3 hr => ServerWorker.processTrusted_random_mismatch w m h3 hr
  · intro w m hne
    by_contra hr
    by_cases h3 : m.length = 3
    · exact hne (ServerWorker.processTrusted_random_mismatch w m h3 hr)
    · exact hne (by rw [ServerWorker.processTrusted_wrong_len w m h3])

/-- C10 witness: a concrete trusted reply echoing random challenge `q`
against a stored client challenge `r` is rejected. -/
theorem claim_C10_witness :
    (ServerWorker.process_message_from_trusted_and_generate_response_for_client
        sampleWorkerAfterClient
        (Msg.env [Field.str "q", Field.str "x", Field.enc ⟨"a:b", 7⟩])).2 =
      Msg.sig errorSignal :=
  claim_C10_random_challenge_check.1 sampleWorkerAfterClient
    (Msg.env [Field.str "q", Field.str "x", Field.enc ⟨"a:b", 7⟩])
    (by decide) (by decide)

end OtwayRees
